import Mathlib

/-!
Verification development for the wallet ledger service.

The definitions below are a shallow embedding of the Go service
(`internal/service/wallet.go`, `internal/service` validation file,
`config/config.go`) together with the PostgreSQL schema and triggers
(`migrations/init.sql`).  Monetary amounts (Go `float64` carrying
`DECIMAL(20,2)` values) are modelled as integers counted in cents,
the exact resolution of the `DECIMAL(20,2)` column; timestamps as
naturals; and the `accounts` table (keyed by its primary key) as a
partial map from identifiers to rows.  Handler outcomes mirror the
HTTP responses the service produces.
-/

/-- Go `type Currency string` (validator file). -/
abbrev Currency := String

/-- Embedding of `Currency.IsValid`: membership in the closed enumeration. -/
def Currency.IsValid (c : Currency) : Bool :=
  match c with
  | "USD" => true
  | "EUR" => true
  | "GBP" => true
  | "KZT" => true
  | _ => false

/-- Go struct `Account` (`id`, `balance`, `currency`, `created_at`). -/
structure Account where
  ID : String
  Balance : ℤ
  Currency : Currency
  CreatedAt : Nat
deriving DecidableEq

/-- Go struct `Transaction`; also the shape of a row of the
`transactions` table (`id SERIAL`, `from_account`, `to_account`,
`amount`, `status`, `created_at`). -/
structure Transaction where
  ID : Nat
  From : String
  To : String
  Amount : ℤ
  Status : String
  CreatedAt : Nat
deriving DecidableEq

/-- The dynamically typed offending value stored in a
`ValidationError`: the Go code stores either the offending string or
the offending number. -/
inductive FieldValue where
  | str (s : String)
  | num (q : ℤ)
deriving DecidableEq

/-- Go struct `ValidationError {Field, Message, Value}`. -/
structure ValidationError where
  Field : String
  Message : String
  Value : FieldValue
deriving DecidableEq

/-- A byte accepted by `xtob` in `github.com/google/uuid`: a hex digit. -/
def isHexDigit (c : Char) : Bool :=
  ('0' ≤ c && c ≤ '9') || ('a' ≤ c && c ≤ 'f') || ('A' ≤ c && c ≤ 'F')

/-- Start offsets of the sixteen hex byte pairs of a canonical
`xxxxxxxx-xxxx-xxxx-xxxx-xxxxxxxxxxxx` form, as hard-coded in
`uuid.Parse`. -/
def hexPairStarts : List Nat := [0, 2, 4, 6, 9, 11, 14, 16, 19, 21, 24, 26, 28, 30, 32, 34]

/-- Character of `cs` at index `i` (out of range never occurs on the
paths below; the default is an always-rejected character). -/
def charAt (cs : List Char) (i : Nat) : Char := cs.getD i '*'

/-- The canonical-body check of `uuid.Parse`: dashes at offsets 8, 13,
18, 23 and hex digits at the sixteen pair offsets.  Only the first 36
characters are inspected, exactly as in the Go code. -/
def canonicalUUIDBody (cs : List Char) : Bool :=
  charAt cs 8 == '-' && charAt cs 13 == '-' && charAt cs 18 == '-' && charAt cs 23 == '-' &&
  hexPairStarts.all (fun x => isHexDigit (charAt cs x) && isHexDigit (charAt cs (x + 1)))

/-- Embedding of `uuid.Parse` from `github.com/google/uuid` (returns
whether parsing succeeds): length 36 canonical, length 45 with a
case-insensitive `urn:uuid:` head, length 38 with the first character
dropped (the braces themselves are not checked, as in the Go code),
or 32 raw hex characters. -/
def uuidParseOk (s : String) : Bool :=
  let cs := s.toList
  if cs.length = 36 then canonicalUUIDBody cs
  else if cs.length = 45 then
    decide ((cs.take 9).map Char.toLower = "urn:uuid:".toList) && canonicalUUIDBody (cs.drop 9)
  else if cs.length = 38 then canonicalUUIDBody (cs.drop 1)
  else if cs.length = 32 then cs.all isHexDigit
  else false

/-- Embedding of `isValidUUID` (wallet.go): `uuid.Parse(u)` succeeds. -/
def isValidUUID (u : String) : Bool := uuidParseOk u

/-- Custom validator `validateUUID4`: empty strings pass (deferred to
`omitempty`/`required`), otherwise `uuid.Parse` must succeed. -/
def validateUUID4 (value : String) : Bool :=
  if value = "" then true else uuidParseOk value

/-- Embedding of `getErrorMsg`: human-readable message per failed tag. -/
def getErrorMsg (tag field param : String) : String :=
  match tag with
  | "required" => "Field " ++ field ++ " is required"
  | "uuid4" => "Field " ++ field ++ " must be a valid UUID v4"
  | "min" => "Field " ++ field ++ " must be greater than or equal to " ++ param
  | "gt" => "Field " ++ field ++ " must be greater than " ++ param
  | "nefield" => "Field " ++ field ++ " cannot be the same as " ++ param
  | "currency" => "Field " ++ field ++ " must be one of: USD, EUR, GBP, KZT"
  | _ => "Field " ++ field ++ " is invalid"

/-- Errors of the `From` field of a `Transaction`
(tags `required,uuid4`, evaluated in order, first failure reported). -/
def fromFieldErrors (t : Transaction) : List ValidationError :=
  if t.From = "" then [⟨"From", getErrorMsg "required" "From" "", .str t.From⟩]
  else if validateUUID4 t.From = true then []
  else [⟨"From", getErrorMsg "uuid4" "From" "", .str t.From⟩]

/-- Errors of the `To` field of a `Transaction`
(tags `required,uuid4,nefield=From`). -/
def toFieldErrors (t : Transaction) : List ValidationError :=
  if t.To = "" then [⟨"To", getErrorMsg "required" "To" "", .str t.To⟩]
  else if validateUUID4 t.To = true then
    if t.To = t.From then [⟨"To", getErrorMsg "nefield" "To" "From", .str t.To⟩] else []
  else [⟨"To", getErrorMsg "uuid4" "To" "", .str t.To⟩]

/-- Errors of the `Amount` field of a `Transaction` (tags `required,gt=0`;
`required` on a float fails exactly on the zero value). -/
def amountFieldErrors (t : Transaction) : List ValidationError :=
  if t.Amount = 0 then [⟨"Amount", getErrorMsg "required" "Amount" "", .num t.Amount⟩]
  else if 0 < t.Amount then []
  else [⟨"Amount", getErrorMsg "gt" "Amount" "0", .num t.Amount⟩]

/-- Embedding of `Validator.ValidateTransaction`: the field errors in struct-field
order (`From`, `To`, `Amount`; the untagged fields contribute none). -/
def ValidateTransaction (t : Transaction) : List ValidationError :=
  fromFieldErrors t ++ toFieldErrors t ++ amountFieldErrors t

/-- Errors of the `ID` field of an `Account` (tags `omitempty,uuid4`). -/
def accountIdErrors (acc : Account) : List ValidationError :=
  if acc.ID = "" then []
  else if uuidParseOk acc.ID = true then []
  else [⟨"ID", getErrorMsg "uuid4" "ID" "", .str acc.ID⟩]

/-- Errors of the `Balance` field of an `Account` (tags `omitempty,min=0`;
`omitempty` skips the zero value). -/
def accountBalanceErrors (acc : Account) : List ValidationError :=
  if acc.Balance = 0 then []
  else if 0 ≤ acc.Balance then []
  else [⟨"Balance", getErrorMsg "min" "Balance" "0", .num acc.Balance⟩]

/-- Errors of the `Currency` field of an `Account` (tags `required,currency`). -/
def accountCurrencyErrors (acc : Account) : List ValidationError :=
  if acc.Currency = "" then [⟨"Currency", getErrorMsg "required" "Currency" "", .str acc.Currency⟩]
  else if Currency.IsValid acc.Currency = true then []
  else [⟨"Currency", getErrorMsg "currency" "Currency" "", .str acc.Currency⟩]

/-- Embedding of `Validator.ValidateAccount`: field errors in struct-field order. -/
def ValidateAccount (acc : Account) : List ValidationError :=
  accountIdErrors acc ++ accountBalanceErrors acc ++ accountCurrencyErrors acc

/-- Embedding of `config.AppConfig` (`config/config.go`); the `Load` defaults are
`100`, `0.01`, `1000000` (1 and 100000000 cents). -/
structure AppConfig where
  TransactionHistoryLimit : Nat
  MinTransactionAmount : ℤ
  MaxTransactionAmount : ℤ
deriving DecidableEq

/-- The configuration produced by `config.Load` with no environment
overrides. -/
def defaultAppConfig : AppConfig :=
  { TransactionHistoryLimit := 100, MinTransactionAmount := 1, MaxTransactionAmount := 100000000 }

/-- The persistent database state: the `accounts` table as a map keyed
by its primary key, the `transactions` table in insertion order, the
`SERIAL` counter for transaction ids, and the clock used for
`CURRENT_TIMESTAMP`. -/
structure Store where
  accounts : String → Option Account
  transactions : List Transaction
  nextTxId : Nat
  now : Nat

/-- Database-level failures relevant to the embedded queries. -/
inductive SqlErr where
  | errNoRows
  | raiseInsufficientFunds
  | raiseCurrencyMismatch
  | checkViolation
deriving DecidableEq

/-- Embedding of `UPDATE accounts SET balance = balance + delta WHERE id = id`,
subject to the schema constraint `CHECK (balance >= 0)`; updating no
row is a successful no-op, as in SQL. -/
def execUpdateBalance (s : Store) (id : String) (delta : ℤ) : Except SqlErr Store :=
  match s.accounts id with
  | none => .ok s
  | some a =>
    if 0 ≤ a.Balance + delta then
      .ok { s with accounts := fun i => if i = id then some { a with Balance := a.Balance + delta } else s.accounts i }
    else .error .checkViolation

/-- Trigger function `check_sufficient_balance` (init.sql): raise if
the sender's current balance is below the inserted amount; a missing
sender row leaves the variable NULL and the comparison not true. -/
def check_sufficient_balance (s : Store) (frm : String) (amount : ℤ) : Except SqlErr Unit :=
  match s.accounts frm with
  | some a => if a.Balance < amount then .error .raiseInsufficientFunds else .ok ()
  | none => .ok ()

/-- Trigger function `check_currency_match` (init.sql): raise if the
two accounts' currencies differ; NULL comparisons are not true. -/
def check_currency_match (s : Store) (frm toId : String) : Except SqlErr Unit :=
  match s.accounts frm, s.accounts toId with
  | some fa, some ta => if fa.Currency ≠ ta.Currency then .error .raiseCurrencyMismatch else .ok ()
  | _, _ => .ok ()

/-- Trigger function `update_balances` (init.sql): debit the sender,
then credit the receiver. -/
def update_balances (s : Store) (frm toId : String) (amount : ℤ) : Except SqlErr Store :=
  match execUpdateBalance s frm (-amount) with
  | .error e => .error e
  | .ok s1 => execUpdateBalance s1 toId amount

/-- Embedding of `INSERT INTO transactions (from_account, to_account, amount, status,
created_at) VALUES (..., CURRENT_TIMESTAMP) RETURNING id, created_at`
under the init.sql schema: the BEFORE INSERT row triggers fire in
trigger-name order (`check_balance_before_insert`, then
`check_currency_before_insert`), then the table constraints are
checked (foreign keys, `amount > 0`, the status enumeration,
`chk_different_accounts`), the row is inserted with the next `SERIAL`
id, and the AFTER INSERT trigger `update_balances_after_insert` runs
when the new status is `completed`. -/
def insertTransactionRow (s : Store) (frm toId : String) (amount : ℤ) (status : String) :
    Except SqlErr (Store × Transaction) :=
  match check_sufficient_balance s frm amount with
  | .error e => .error e
  | .ok _ =>
    match check_currency_match s frm toId with
    | .error e => .error e
    | .ok _ =>
      if (s.accounts frm).isNone || (s.accounts toId).isNone then .error .checkViolation
      else if amount ≤ 0 then .error .checkViolation
      else if !(status == "pending" || status == "completed" || status == "failed") then .error .checkViolation
      else if frm = toId then .error .checkViolation
      else
        let row : Transaction := ⟨s.nextTxId, frm, toId, amount, status, s.now⟩
        let s1 : Store := { s with transactions := s.transactions ++ [row], nextTxId := s.nextTxId + 1 }
        if status == "completed" then
          match update_balances s1 frm toId amount with
          | .error e => .error e
          | .ok s2 => .ok (s2, row)
        else .ok (s1, row)

/-- Embedding of `WalletService.lockAndGetAccount`: `SELECT id, balance, created_at
FROM accounts WHERE id = $1 FOR UPDATE` scanned into a fresh `Account`
(the currency column is not selected, so the field keeps its zero
value). -/
def lockAndGetAccount (s : Store) (id : String) : Except SqlErr Account :=
  match s.accounts id with
  | some a => .ok ⟨a.ID, a.Balance, "", a.CreatedAt⟩
  | none => .error .errNoRows

/-- Lexicographic comparison of character lists, mirroring Go's
byte-wise `<` on strings (on UTF-8 encodings the byte order and the
code-point order agree; coincidence with the order on `String` is
proved below). -/
def charListLt : List Char → List Char → Bool
  | _, [] => false
  | [], _ :: _ => true
  | a :: as, b :: bs => if a < b then true else if b < a then false else charListLt as bs

/-- Go's `tx.From < tx.To` string comparison. -/
def goStringLess (a b : String) : Bool := charListLt a.toList b.toList

/-- The lock-acquisition step of `WalletService.Transfer`
(wallet.go lines 163-174): when `tx.From < tx.To` lock the source row
first, otherwise lock the destination row first.  The first component
records the identifiers for which a `FOR UPDATE` lock was requested,
in order. -/
def lockAccountsInOrder (s : Store) (frm toId : String) :
    List String × Except SqlErr (Account × Account) :=
  if goStringLess frm toId = true then
    match lockAndGetAccount s frm with
    | .error e => ([frm], .error e)
    | .ok fromAcc =>
      match lockAndGetAccount s toId with
      | .error e => ([frm, toId], .error e)
      | .ok toAcc => ([frm, toId], .ok (fromAcc, toAcc))
  else
    match lockAndGetAccount s toId with
    | .error e => ([toId], .error e)
    | .ok toAcc =>
      match lockAndGetAccount s frm with
      | .error e => ([toId, frm], .error e)
      | .ok fromAcc => ([toId, frm], .ok (fromAcc, toAcc))

/-- Outcome of the `Transfer` handler, mirroring its HTTP responses. -/
inductive TransferOutcome where
  | validationFailed (errs : List ValidationError)
  | accountNotFound
  | insufficientFunds
  | internalFault (msg : String)
  | success (rec : Transaction)
deriving DecidableEq

/-- Embedding of `WalletService.Transfer`: validate, open a transaction (rolled
back on every early return), lock both rows in identifier order, check
existence and sufficiency, issue the two balance updates, insert the
audit row with status `completed`, and commit.  Any database error is
reported as a generic internal fault with the handler's message. -/
def Transfer (cfg : AppConfig) (tx : Transaction) (s : Store) : TransferOutcome × Store :=
  match ValidateTransaction tx with
  | e :: es => (.validationFailed (e :: es), s)
  | [] =>
    match (lockAccountsInOrder s tx.From tx.To).2 with
    | .error .errNoRows => (.accountNotFound, s)
    | .error _ => (.internalFault "Database error", s)
    | .ok (fromAcc, _toAcc) =>
      if fromAcc.Balance < tx.Amount then (.insufficientFunds, s)
      else
        match execUpdateBalance s tx.From (-tx.Amount) with
        | .error _ => (.internalFault "Failed to update source account", s)
        | .ok s1 =>
          match execUpdateBalance s1 tx.To tx.Amount with
          | .error _ => (.internalFault "Failed to update destination account", s)
          | .ok s2 =>
            match insertTransactionRow s2 tx.From tx.To tx.Amount "completed" with
            | .error _ => (.internalFault "Failed to record transaction", s)
            | .ok (s3, row) => (.success row, s3)

/-- Outcome of the `CreateAccount` handler. -/
inductive CreateOutcome where
  | validationFailed (errs : List ValidationError)
  | conflict
  | internalFault (msg : String)
  | created (acc : Account)
deriving DecidableEq

/-- The identifier-defaulting step of `CreateAccount`: a generated
UUID (`GenerateAccountID`, passed in as `g`) replaces an absent id. -/
def withGeneratedId (g : String) (req : Account) : Account :=
  if req.ID = "" then { req with ID := g } else req

/-- Embedding of `WalletService.CreateAccount`: default the id, validate, check
non-existence inside a transaction, insert (subject to the schema's
balance check and currency enumeration), and commit. -/
def CreateAccount (cfg : AppConfig) (g : String) (req : Account) (s : Store) : CreateOutcome × Store :=
  match ValidateAccount (withGeneratedId g req) with
  | e :: es => (.validationFailed (e :: es), s)
  | [] =>
    match s.accounts (withGeneratedId g req).ID with
    | some _ => (.conflict, s)
    | none =>
      let stored : Account := { withGeneratedId g req with CreatedAt := s.now }
      if 0 ≤ stored.Balance ∧ Currency.IsValid stored.Currency = true then
        (.created stored, { s with accounts := fun i => if i = stored.ID then some stored else s.accounts i })
      else (.internalFault "Failed to create account", s)

/-- Outcome of the read-only handlers `GetBalance` and
`GetTransactionHistory`. -/
inductive QueryOutcome where
  | badRequest (msg : String)
  | notFound
  | okAccount (a : Account)
  | okTransactions (l : List Transaction)
deriving DecidableEq

/-- Embedding of `WalletService.GetBalance`: reject an unparseable id, then
`SELECT id, balance, created_at` (no currency column). -/
def GetBalance (cfg : AppConfig) (id : String) (s : Store) : QueryOutcome :=
  if !isValidUUID id then .badRequest "Invalid account ID format"
  else
    match s.accounts id with
    | none => .notFound
    | some a => .okAccount ⟨a.ID, a.Balance, "", a.CreatedAt⟩

/-- Insertion step of `ORDER BY created_at DESC`. -/
def insertByCreatedAtDesc (t : Transaction) : List Transaction → List Transaction
  | [] => [t]
  | h :: r => if h.CreatedAt ≤ t.CreatedAt then t :: h :: r else h :: insertByCreatedAtDesc t r

/-- A list sorted by `created_at` in descending order. -/
def sortByCreatedAtDesc (l : List Transaction) : List Transaction :=
  l.foldr insertByCreatedAtDesc []

/-- The history query of `GetTransactionHistory`: `SELECT ... FROM
transactions WHERE from_account = $1 OR to_account = $1 ORDER BY
created_at DESC LIMIT 100` (the limit is the literal 100 in the SQL
text). -/
def historyRows (s : Store) (id : String) : List Transaction :=
  (sortByCreatedAtDesc (s.transactions.filter (fun t => t.From == id || t.To == id))).take 100

/-- Embedding of `WalletService.GetTransactionHistory`: reject an unparseable id,
check account existence, then run the history query. -/
def GetTransactionHistory (cfg : AppConfig) (id : String) (s : Store) : QueryOutcome :=
  if !isValidUUID id then .badRequest "Invalid account ID format"
  else if (s.accounts id).isNone then .notFound
  else .okTransactions (historyRows s id)

/-- Whether a `Transfer` outcome is a validation rejection carrying an
error for the named field. -/
def transferHasFieldError (o : TransferOutcome) (f : String) : Bool :=
  match o with
  | .validationFailed errs => errs.any (fun e => e.Field == f)
  | _ => false

/-- Whether a `CreateAccount` outcome is a validation rejection
carrying an error for the named field. -/
def createHasFieldError (o : CreateOutcome) (f : String) : Bool :=
  match o with
  | .validationFailed errs => errs.any (fun e => e.Field == f)
  | _ => false

/-- Concrete account identifier used in witnesses (a parseable UUID,
lexicographically below `uuidB`). -/
def uuidA : String := "11111111-1111-4111-8111-111111111111"

/-- Concrete account identifier used in witnesses. -/
def uuidB : String := "22222222-2222-4222-8222-222222222222"

/-- A parseable UUID that never names a stored account. -/
def uuidC : String := "33333333-3333-4333-8333-333333333333"

/-- An `accounts` table holding exactly the given rows (keyed by the
row's `ID`). -/
def accountsOf (l : List Account) : String → Option Account :=
  fun i => l.find? (fun a => a.ID == i)

/-- A database with no rows. -/
def emptyStore : Store :=
  { accounts := fun _ => none, transactions := [], nextTxId := 1, now := 0 }

/-- Two same-currency accounts: `uuidA` holds 100.00 USD, `uuidB`
holds 50.00 USD (amounts in cents). -/
def storeAB : Store :=
  { accounts := accountsOf [⟨uuidA, 10000, "USD", 10⟩, ⟨uuidB, 5000, "USD", 20⟩],
    transactions := [], nextTxId := 1, now := 1000 }

/-- A transfer request of 30.00 from `uuidA` to `uuidB`. -/
def reqAB : Transaction := ⟨0, uuidA, uuidB, 3000, "", 0⟩

/-- Like `storeAB` but with the destination account held in euros. -/
def storeABEur : Store :=
  { accounts := accountsOf [⟨uuidA, 10000, "USD", 10⟩, ⟨uuidB, 5000, "EUR", 20⟩],
    transactions := [], nextTxId := 1, now := 1000 }

/-- A single account `uuidA` holding 5.00 USD. -/
def storeSelf : Store :=
  { accounts := accountsOf [⟨uuidA, 500, "USD", 10⟩], transactions := [], nextTxId := 1, now := 1000 }

/-- A self-transfer request of 10.00 against `storeSelf` (the balance
is below the amount). -/
def reqSelf : Transaction := ⟨0, uuidA, uuidA, 1000, "", 0⟩

/-- A transfer request whose source identifier is not a parseable UUID. -/
def reqBadFrom : Transaction := ⟨0, "abc", uuidB, 1000, "", 0⟩

/-- A store holding one zero-balance account `uuidA`. -/
def storeA0 : Store :=
  { accounts := accountsOf [⟨uuidA, 0, "USD", 10⟩], transactions := [], nextTxId := 1, now := 1000 }

/-- An application configuration whose history limit is 1. -/
def cfgLimit1 : AppConfig :=
  { TransactionHistoryLimit := 1, MinTransactionAmount := 1, MaxTransactionAmount := 100000000 }

/-- An older and a newer completed transaction between `uuidA` and
`uuidB`. -/
def histRow1 : Transaction := ⟨1, uuidA, uuidB, 500, "completed", 10⟩

/-- The newer of the two history rows. -/
def histRow2 : Transaction := ⟨2, uuidA, uuidB, 500, "completed", 20⟩

/-- The two accounts together with both history rows. -/
def historyStore : Store :=
  { accounts := accountsOf [⟨uuidA, 10000, "USD", 10⟩, ⟨uuidB, 5000, "USD", 20⟩],
    transactions := [histRow1, histRow2], nextTxId := 3, now := 1000 }

theorem charListLt_iff (as bs : List Char) : charListLt as bs = true ↔ as < bs := by
  induction as generalizing bs with
  | nil =>
    cases bs with
    | nil =>
      simp only [charListLt]
      constructor
      · intro h; cases h
      · intro h; cases h
    | cons b bs =>
      simp only [charListLt]
      constructor
      · intro _; exact List.Lex.nil
      · intro _; trivial
  | cons a as ih =>
    cases bs with
    | nil =>
      simp only [charListLt]
      constructor
      · intro h; cases h
      · intro h; cases h
    | cons b bs =>
      simp only [charListLt]
      by_cases hab : a < b
      · simp only [if_pos hab]
        constructor
        · intro _; exact List.Lex.rel hab
        · intro _; trivial
      · simp only [if_neg hab]
        by_cases hba : b < a
        · simp only [if_pos hba]
          constructor
          · intro h; cases h
          · intro h
            cases h with
            | cons h1 => exact absurd hba (lt_irrefl _)
            | rel h1 => exact absurd h1 hab
        · simp only [if_neg hba]
          have heq : a = b := le_antisymm (le_of_not_lt hba) (le_of_not_lt hab)
          subst heq
          rw [ih bs]
          constructor
          · intro h; exact List.Lex.cons h
          · intro h
            cases h with
            | cons h1 => exact h1
            | rel h1 => exact absurd h1 hab

theorem goStringLess_iff (a b : String) : goStringLess a b = true ↔ a < b := by
  rw [goStringLess, charListLt_iff, String.lt_iff_toList_lt]

theorem lockAccountsInOrder_fst (s : Store) (frm toId : String) :
    (lockAccountsInOrder s frm toId).1 =
      if goStringLess frm toId = true then
        match lockAndGetAccount s frm with
        | .error _ => [frm]
        | .ok _ => [frm, toId]
      else
        match lockAndGetAccount s toId with
        | .error _ => [toId]
        | .ok _ => [toId, frm] := by
  rw [lockAccountsInOrder]
  split
  · cases lockAndGetAccount s frm with
    | error e => rfl
    | ok fa =>
      cases lockAndGetAccount s toId with
      | error e => rfl
      | ok ta => rfl
  · cases lockAndGetAccount s toId with
    | error e => rfl
    | ok ta =>
      cases lockAndGetAccount s frm with
      | error e => rfl
      | ok fa => rfl

/-- C2: for every transfer between two distinct accounts the engine
requests the two row locks in an order determined solely by comparing
the two identifiers — the lock-acquisition sequence for a transfer
from `frm` to `toId` equals the sequence for the reverse transfer, the
first lock requested is always on the lexicographically smaller
identifier, and when both accounts exist the sequence is exactly
smaller-then-larger. -/
theorem C2_lock_order_deterministic (s : Store) (frm toId : String) (hne : frm ≠ toId) :
    (lockAccountsInOrder s frm toId).1 = (lockAccountsInOrder s toId frm).1 ∧
    (lockAccountsInOrder s frm toId).1.head? = some (min frm toId) ∧
    ((s.accounts frm).isSome → (s.accounts toId).isSome →
      (lockAccountsInOrder s frm toId).1 = [min frm toId, max frm toId]) := by
  rcases lt_trichotomy frm toId with h | h | h
  · have h1 : goStringLess frm toId = true := (goStringLess_iff _ _).mpr h
    have h2 : goStringLess toId frm = false := by
      rw [Bool.eq_false_iff]
      intro hc
      exact absurd ((goStringLess_iff _ _).mp hc) (not_lt_of_gt h)
    have hmin : min frm toId = frm := min_eq_left h.le
    have hmax : max frm toId = toId := max_eq_right h.le
    rw [lockAccountsInOrder_fst, lockAccountsInOrder_fst, h1, h2, hmin, hmax]
    refine ⟨by simp, ?_, ?_⟩
    · cases lockAndGetAccount s frm with
      | error e => simp
      | ok fa => simp
    · intro hsf hst
      obtain ⟨fa, hfa⟩ := Option.isSome_iff_exists.mp hsf
      have hf : lockAndGetAccount s frm = .ok ⟨fa.ID, fa.Balance, "", fa.CreatedAt⟩ := by
        rw [lockAndGetAccount, hfa]
      rw [hf]
      simp
  · exact absurd h hne
  · have h1 : goStringLess frm toId = false := by
      rw [Bool.eq_false_iff]
      intro hc
      exact absurd ((goStringLess_iff _ _).mp hc) (not_lt_of_gt h)
    have h2 : goStringLess toId frm = true := (goStringLess_iff _ _).mpr h
    have hmin : min frm toId = toId := min_eq_right h.le
    have hmax : max frm toId = frm := max_eq_left h.le
    rw [lockAccountsInOrder_fst, lockAccountsInOrder_fst, h1, h2, hmin, hmax]
    refine ⟨by simp, ?_, ?_⟩
    · cases lockAndGetAccount s toId with
      | error e => simp
      | ok ta => simp
    · intro hsf hst
      obtain ⟨ta, hta⟩ := Option.isSome_iff_exists.mp hst
      have ht : lockAndGetAccount s toId = .ok ⟨ta.ID, ta.Balance, "", ta.CreatedAt⟩ := by
        rw [lockAndGetAccount, hta]
      rw [ht]
      simp

/-- Witness for C2 at concrete inputs: against `storeAB`, the lock
sequences of an `uuidA`-to-`uuidB` transfer and its reverse coincide
and run smaller-first. -/
theorem C2_lock_order_deterministic_witness :
    (lockAccountsInOrder storeAB uuidA uuidB).1 = (lockAccountsInOrder storeAB uuidB uuidA).1 ∧
    (lockAccountsInOrder storeAB uuidA uuidB).1 = [min uuidA uuidB, max uuidA uuidB] := by
  obtain ⟨h1, _h2, h3⟩ := C2_lock_order_deterministic storeAB uuidA uuidB (by decide)
  exact ⟨h1, h3 (by decide) (by decide)⟩

theorem lockAccountsInOrder_snd_ok (s : Store) (frm toId : String) (fa ta : Account)
    (hf : s.accounts frm = some fa) (ht : s.accounts toId = some ta) :
    (lockAccountsInOrder s frm toId).2 =
      .ok (⟨fa.ID, fa.Balance, "", fa.CreatedAt⟩, ⟨ta.ID, ta.Balance, "", ta.CreatedAt⟩) := by
  rw [lockAccountsInOrder]
  split <;> simp [lockAndGetAccount, hf, ht]

theorem lockAccountsInOrder_snd_noRows (s : Store) (frm toId : String)
    (h : s.accounts frm = none ∨ s.accounts toId = none) :
    (lockAccountsInOrder s frm toId).2 = .error .errNoRows := by
  rw [lockAccountsInOrder]
  split <;>
    rcases hf : s.accounts frm with _ | fa <;>
    rcases ht : s.accounts toId with _ | ta <;>
    simp_all [lockAndGetAccount]

theorem ValidateTransaction_nil_facts {t : Transaction} (h : ValidateTransaction t = []) :
    t.To ≠ t.From ∧ 0 < t.Amount := by
  rw [ValidateTransaction] at h
  rcases List.append_eq_nil.mp h with ⟨h12, h3⟩
  rcases List.append_eq_nil.mp h12 with ⟨h1, h2⟩
  constructor
  · intro hEq
    rw [toFieldErrors] at h2
    split at h2
    · simp at h2
    · split at h2
      · simp_all
      · simp_all
  · rw [amountFieldErrors] at h3
    split at h3
    · simp at h3
    · split at h3
      · assumption
      · simp at h3

/-- C3 counterexample: a self-transfer request against an existing
account whose balance (5.00) is below the amount (10.00) is rejected
by validation, not with the insufficient-funds outcome the claim
promises for every such request. -/
theorem C3_self_transfer_counterexample :
    (storeSelf.accounts reqSelf.From).map Account.Balance = some 500 ∧
    (storeSelf.accounts reqSelf.To).map Account.Balance = some 500 ∧
    reqSelf.Amount = 1000 ∧
    (Transfer defaultAppConfig reqSelf storeSelf).1 ≠ .insufficientFunds ∧
    (Transfer defaultAppConfig reqSelf storeSelf).1 =
      .validationFailed [⟨"To", "Field To cannot be the same as From", .str uuidA⟩] ∧
    (Transfer defaultAppConfig reqSelf storeSelf).2 = storeSelf := by
  refine ⟨by decide, by decide, by decide, by decide, by decide, rfl⟩

/-- C3 (amended): for every transfer request that passes validation,
where both accounts exist and the source balance is strictly below the
amount, the handler returns the insufficient-funds outcome and leaves
the store untouched. -/
theorem C3_insufficient_funds_amended (cfg : AppConfig) (tx : Transaction) (s : Store)
    (fa ta : Account)
    (hv : ValidateTransaction tx = [])
    (hf : s.accounts tx.From = some fa)
    (ht : s.accounts tx.To = some ta)
    (hlt : fa.Balance < tx.Amount) :
    Transfer cfg tx s = (.insufficientFunds, s) := by
  have hlock := lockAccountsInOrder_snd_ok s tx.From tx.To fa ta hf ht
  simp [Transfer, hv, hlock, hlt]

/-- Witness for the amended C3: transferring 200.00 out of the 100.00
account of `storeAB` yields insufficient funds with no state change. -/
theorem C3_insufficient_funds_amended_witness :
    Transfer defaultAppConfig ⟨0, uuidA, uuidB, 20000, "", 0⟩ storeAB = (.insufficientFunds, storeAB) :=
  C3_insufficient_funds_amended defaultAppConfig ⟨0, uuidA, uuidB, 20000, "", 0⟩ storeAB
    ⟨uuidA, 10000, "USD", 10⟩ ⟨uuidB, 5000, "USD", 20⟩
    (by decide) (by decide) (by decide) (by decide)

/-- C4 counterexample: a transfer whose source identifier `"abc"`
names no account (it is not even a parseable UUID) is rejected by
validation with a bad-request outcome, not the not-found outcome the
claim promises whenever a referenced account does not exist. -/
theorem C4_invalid_id_counterexample :
    emptyStore.accounts reqBadFrom.From = none ∧
    (Transfer defaultAppConfig reqBadFrom emptyStore).1 ≠ .accountNotFound ∧
    (Transfer defaultAppConfig reqBadFrom emptyStore).1 =
      .validationFailed [⟨"From", "Field From must be a valid UUID v4", .str "abc"⟩] ∧
    (Transfer defaultAppConfig reqBadFrom emptyStore).2 = emptyStore := by
  refine ⟨rfl, by decide, by decide, rfl⟩

/-- C4 (amended): for every transfer request that passes validation
where at least one referenced account does not exist, the handler
returns the not-found outcome and leaves the store untouched (the
enclosing database transaction is rolled back). -/
theorem C4_not_found_amended (cfg : AppConfig) (tx : Transaction) (s : Store)
    (hv : ValidateTransaction tx = [])
    (h : s.accounts tx.From = none ∨ s.accounts tx.To = none) :
    Transfer cfg tx s = (.accountNotFound, s) := by
  have hlock := lockAccountsInOrder_snd_noRows s tx.From tx.To h
  simp [Transfer, hv, hlock]

/-- Witness for the amended C4: transferring from `uuidA` to the
absent `uuidC` returns not-found and leaves `storeAB` untouched. -/
theorem C4_not_found_amended_witness :
    Transfer defaultAppConfig ⟨0, uuidA, uuidC, 1000, "", 0⟩ storeAB = (.accountNotFound, storeAB) :=
  C4_not_found_amended defaultAppConfig ⟨0, uuidA, uuidC, 1000, "", 0⟩ storeAB
    (by decide) (Or.inr (by decide))

theorem execUpdateBalance_some (s : Store) (id : String) (delta : ℤ) (a : Account)
    (ha : s.accounts id = some a) (h0 : 0 ≤ a.Balance + delta) :
    execUpdateBalance s id delta =
      .ok { s with accounts := fun i => if i = id then some { a with Balance := a.Balance + delta } else s.accounts i } := by
  rw [execUpdateBalance]
  simp [ha, h0]

theorem insertTransactionRow_error_of_mismatch (s : Store) (frm toId : String) (amount : ℤ)
    (status : String) (fb tb : Account)
    (hf : s.accounts frm = some fb) (ht : s.accounts toId = some tb)
    (hcur : fb.Currency ≠ tb.Currency) :
    ∃ e, insertTransactionRow s frm toId amount status = .error e := by
  by_cases hq : fb.Balance < amount
  · refine ⟨.raiseInsufficientFunds, ?_⟩
    rw [insertTransactionRow, check_sufficient_balance]
    simp [hf, hq]
  · refine ⟨.raiseCurrencyMismatch, ?_⟩
    rw [insertTransactionRow, check_sufficient_balance, check_currency_match]
    simp [hf, ht, hq, hcur]

/-- C5 counterexample: a transfer between two existing accounts of
different currencies (sufficient balance, validation passing) is
answered with the generic internal fault of the failed audit insert —
the engine itself never checks currencies, so the failure is not the
distinct business-rule outcome the claim promises. -/
theorem C5_currency_internal_fault_counterexample :
    (storeABEur.accounts reqAB.From).map Account.Currency = some "USD" ∧
    (storeABEur.accounts reqAB.To).map Account.Currency = some "EUR" ∧
    (Transfer defaultAppConfig reqAB storeABEur).1 = .internalFault "Failed to record transaction" ∧
    (Transfer defaultAppConfig reqAB storeABEur).2 = storeABEur := by
  refine ⟨by decide, by decide, by decide, rfl⟩

/-- C5 (amended): when the two existing accounts of a validated,
sufficiently funded transfer hold different currencies, the currency
rule fires only at the storage layer (a before-insert trigger) and the
handler surfaces it as the generic internal fault of the failed
insert, rolling the transaction back. -/
theorem C5_currency_storage_only_amended (cfg : AppConfig) (tx : Transaction) (s : Store)
    (fa ta : Account)
    (hv : ValidateTransaction tx = [])
    (hf : s.accounts tx.From = some fa)
    (ht : s.accounts tx.To = some ta)
    (hbal : ¬ fa.Balance < tx.Amount)
    (htb : 0 ≤ ta.Balance)
    (hcur : fa.Currency ≠ ta.Currency) :
    Transfer cfg tx s = (.internalFault "Failed to record transaction", s) := by
  obtain ⟨hne, hpos⟩ := ValidateTransaction_nil_facts hv
  have hne' : tx.From ≠ tx.To := fun hh => hne hh.symm
  have hlock := lockAccountsInOrder_snd_ok s tx.From tx.To fa ta hf ht
  have hd0 : 0 ≤ fa.Balance + -tx.Amount := by omega
  have h1 : execUpdateBalance s tx.From (-tx.Amount) =
      .ok { s with accounts := fun i => if i = tx.From then some { fa with Balance := fa.Balance + -tx.Amount } else s.accounts i } :=
    execUpdateBalance_some s tx.From (-tx.Amount) fa hf hd0
  have h1t : (fun i => if i = tx.From then some { fa with Balance := fa.Balance + -tx.Amount } else s.accounts i) tx.To = some ta := by
    simp only [if_neg hne]
    exact ht
  have hc0 : 0 ≤ ta.Balance + tx.Amount := by omega
  have h2 : execUpdateBalance
      { s with accounts := fun i => if i = tx.From then some { fa with Balance := fa.Balance + -tx.Amount } else s.accounts i }
      tx.To tx.Amount =
      .ok { s with accounts := fun i => if i = tx.To then some { ta with Balance := ta.Balance + tx.Amount }
              else if i = tx.From then some { fa with Balance := fa.Balance + -tx.Amount } else s.accounts i } :=
    execUpdateBalance_some _ tx.To tx.Amount ta h1t hc0
  have h2f : (fun i => if i = tx.To then some { ta with Balance := ta.Balance + tx.Amount }
        else if i = tx.From then some { fa with Balance := fa.Balance + -tx.Amount } else s.accounts i) tx.From =
      some { fa with Balance := fa.Balance + -tx.Amount } := by
    simp [hne']
  have h2t : (fun i => if i = tx.To then some { ta with Balance := ta.Balance + tx.Amount }
        else if i = tx.From then some { fa with Balance := fa.Balance + -tx.Amount } else s.accounts i) tx.To =
      some { ta with Balance := ta.Balance + tx.Amount } := by
    simp
  obtain ⟨e, hins⟩ := insertTransactionRow_error_of_mismatch
      { s with accounts := fun i => if i = tx.To then some { ta with Balance := ta.Balance + tx.Amount }
          else if i = tx.From then some { fa with Balance := fa.Balance + -tx.Amount } else s.accounts i }
      tx.From tx.To tx.Amount "completed" _ _ h2f h2t hcur
  simp [Transfer, hv, hlock, hbal, h1, h2, hins]

/-- Witness for the amended C5: the USD-to-EUR transfer of `reqAB`
against `storeABEur` is answered with the generic internal fault and
no state change. -/
theorem C5_currency_storage_only_amended_witness :
    Transfer defaultAppConfig reqAB storeABEur = (.internalFault "Failed to record transaction", storeABEur) :=
  C5_currency_storage_only_amended defaultAppConfig reqAB storeABEur
    ⟨uuidA, 10000, "USD", 10⟩ ⟨uuidB, 5000, "EUR", 20⟩
    (by decide) (by decide) (by decide) (by decide) (by decide) (by decide)

theorem toFieldErrors_self {t : Transaction} (h : t.From = t.To) :
    ∃ m v, toFieldErrors t = [⟨"To", m, v⟩] := by
  rw [toFieldErrors]
  split
  · exact ⟨_, _, rfl⟩
  · split
    · rw [if_pos h.symm]
      exact ⟨_, _, rfl⟩
    · exact ⟨_, _, rfl⟩

/-- C6: a transfer request whose source equals its destination is
rejected by validation with a field-level violation on `To`; the
response does not depend on the stored state and the store is left
untouched (no storage access happens before validation). -/
theorem C6_self_transfer_validation (cfg : AppConfig) (tx : Transaction) (s s' : Store)
    (h : tx.From = tx.To) :
    Transfer cfg tx s = ((Transfer cfg tx s').1, s) ∧
    transferHasFieldError (Transfer cfg tx s).1 "To" = true := by
  obtain ⟨m, v, hTo⟩ := toFieldErrors_self h
  have hne : ValidateTransaction tx ≠ [] := by
    rw [ValidateTransaction, hTo]
    simp
  obtain ⟨e, es, hL⟩ := List.exists_cons_of_ne_nil hne
  have hmem : (⟨"To", m, v⟩ : ValidationError) ∈ ValidateTransaction tx := by
    rw [ValidateTransaction, hTo]
    simp
  constructor
  · simp only [Transfer, hL]
  · simp only [Transfer, hL, transferHasFieldError]
    rw [List.any_eq_true]
    exact ⟨⟨"To", m, v⟩, hL ▸ hmem, by simp⟩

/-- Witness for C6 at a concrete self-transfer: the same validation
rejection is produced against two different stores and the store is
unchanged. -/
theorem C6_self_transfer_validation_witness :
    Transfer defaultAppConfig reqSelf storeAB = ((Transfer defaultAppConfig reqSelf emptyStore).1, storeAB) ∧
    transferHasFieldError (Transfer defaultAppConfig reqSelf storeAB).1 "To" = true :=
  C6_self_transfer_validation defaultAppConfig reqSelf storeAB emptyStore (by decide)

theorem mem_insertByCreatedAtDesc {x t : Transaction} {l : List Transaction} :
    x ∈ insertByCreatedAtDesc t l ↔ x = t ∨ x ∈ l := by
  induction l with
  | nil => simp [insertByCreatedAtDesc]
  | cons hd r ih =>
    rw [insertByCreatedAtDesc]
    split
    · simp [List.mem_cons]
    · simp only [List.mem_cons, ih]
      tauto

theorem pairwise_insertByCreatedAtDesc {t : Transaction} {l : List Transaction}
    (h : List.Pairwise (fun a b => b.CreatedAt ≤ a.CreatedAt) l) :
    List.Pairwise (fun a b => b.CreatedAt ≤ a.CreatedAt) (insertByCreatedAtDesc t l) := by
  induction l with
  | nil => simp [insertByCreatedAtDesc]
  | cons hd r ih =>
    rw [List.pairwise_cons] at h
    obtain ⟨hall, hr⟩ := h
    rw [insertByCreatedAtDesc]
    split
    · rename_i hle
      rw [List.pairwise_cons]
      refine ⟨?_, List.pairwise_cons.mpr ⟨hall, hr⟩⟩
      intro x hx
      rcases List.mem_cons.mp hx with rfl | hx'
      · exact hle
      · exact le_trans (hall x hx') hle
    · rename_i hgt
      rw [List.pairwise_cons]
      refine ⟨?_, ih hr⟩
      intro x hx
      rcases mem_insertByCreatedAtDesc.mp hx with rfl | hx'
      · omega
      · exact hall x hx'

theorem pairwise_sortByCreatedAtDesc (l : List Transaction) :
    List.Pairwise (fun a b => b.CreatedAt ≤ a.CreatedAt) (sortByCreatedAtDesc l) := by
  induction l with
  | nil => simp [sortByCreatedAtDesc]
  | cons hd r ih =>
    rw [sortByCreatedAtDesc, List.foldr_cons]
    exact pairwise_insertByCreatedAtDesc ih

theorem mem_sortByCreatedAtDesc {x : Transaction} {l : List Transaction} :
    x ∈ sortByCreatedAtDesc l ↔ x ∈ l := by
  induction l with
  | nil => simp [sortByCreatedAtDesc]
  | cons hd r ih =>
    rw [sortByCreatedAtDesc, List.foldr_cons, mem_insertByCreatedAtDesc, List.mem_cons]
    exact or_congr Iff.rfl ih

/-- C7 counterexample: with the history limit configured to 1, the
history query for `uuidA` still returns both of its transactions — the
SQL text hard-codes `LIMIT 100` and the configured limit is never
consulted, so the cap is not configurable as claimed. -/
theorem C7_history_limit_counterexample :
    cfgLimit1.TransactionHistoryLimit = 1 ∧
    GetTransactionHistory cfgLimit1 uuidA historyStore = .okTransactions [histRow2, histRow1] ∧
    (historyRows historyStore uuidA).length = 2 := by
  refine ⟨rfl, by decide, by decide⟩

/-- C7 (amended): the history query ignores the configuration
entirely; for an existing account it returns transactions referencing
that account as source or destination, newest first, capped at the
fixed limit 100; for a non-existent (but parseable) account identifier
it returns not-found. -/
theorem C7_history_amended (cfg cfg' : AppConfig) (id : String) (s : Store) :
    GetTransactionHistory cfg id s = GetTransactionHistory cfg' id s ∧
    (uuidParseOk id = true → s.accounts id = none → GetTransactionHistory cfg id s = .notFound) ∧
    (∀ l, GetTransactionHistory cfg id s = .okTransactions l →
      l.length ≤ 100 ∧
      List.Pairwise (fun a b => b.CreatedAt ≤ a.CreatedAt) l ∧
      ∀ t ∈ l, t ∈ s.transactions ∧ (t.From = id ∨ t.To = id)) := by
  refine ⟨rfl, ?_, ?_⟩
  · intro hu hn
    rw [GetTransactionHistory, isValidUUID]
    simp [hu, hn]
  · intro l hl
    rw [GetTransactionHistory] at hl
    split at hl
    · cases hl
    · split at hl
      · cases hl
      · cases hl
        refine ⟨?_, ?_, ?_⟩
        · rw [historyRows]
          simp [List.length_take]
        · rw [historyRows]
          exact List.Pairwise.sublist (List.take_sublist _ _) (pairwise_sortByCreatedAtDesc _)
        · intro t htl
          rw [historyRows] at htl
          have h1 := List.take_subset _ _ htl
          have h2 := mem_sortByCreatedAtDesc.mp h1
          obtain ⟨hmem, hp⟩ := List.mem_filter.mp h2
          refine ⟨hmem, ?_⟩
          simpa using hp

/-- Witness for the amended C7: the query for the absent `uuidC`
returns not-found, and the query result for `uuidA` is unaffected by
replacing the limit-1 configuration with the default one. -/
theorem C7_history_amended_witness :
    GetTransactionHistory defaultAppConfig uuidC historyStore = .notFound ∧
    GetTransactionHistory cfgLimit1 uuidA historyStore = GetTransactionHistory defaultAppConfig uuidA historyStore := by
  refine ⟨?_, (C7_history_amended cfgLimit1 defaultAppConfig uuidA historyStore).1⟩
  exact (C7_history_amended defaultAppConfig defaultAppConfig uuidC historyStore).2.1 (by decide) (by decide)

theorem accountCurrencyErrors_invalid {acc : Account} (h : Currency.IsValid acc.Currency = false) :
    ∃ m, accountCurrencyErrors acc = [⟨"Currency", m, .str acc.Currency⟩] := by
  rw [accountCurrencyErrors]
  split
  · exact ⟨_, rfl⟩
  · split
    · rename_i hv
      rw [h] at hv
      cases hv
    · exact ⟨_, rfl⟩

theorem withGeneratedId_Currency (g : String) (req : Account) :
    (withGeneratedId g req).Currency = req.Currency := by
  rw [withGeneratedId]
  split <;> rfl

/-- C8 counterexample: a creation request naming an existing account
but carrying the invalid currency `"XYZ"` is rejected by validation,
not with the conflict outcome the claim promises for every request
whose identifier already exists. -/
theorem C8_create_account_counterexample :
    (storeA0.accounts uuidA).isSome = true ∧
    (CreateAccount defaultAppConfig uuidB ⟨uuidA, 0, "XYZ", 0⟩ storeA0).1 ≠ .conflict ∧
    (CreateAccount defaultAppConfig uuidB ⟨uuidA, 0, "XYZ", 0⟩ storeA0).1 =
      .validationFailed [⟨"Currency", "Field Currency must be one of: USD, EUR, GBP, KZT", .str "XYZ"⟩] ∧
    (CreateAccount defaultAppConfig uuidB ⟨uuidA, 0, "XYZ", 0⟩ storeA0).2 = storeA0 := by
  refine ⟨by decide, by decide, by decide, rfl⟩

/-- C8 (amended): every creation request whose currency is outside the
closed enumeration is rejected before any storage write with a
`Currency` field error, independently of the stored state; and every
creation request that passes validation and carries an identifier that
already exists fails with the conflict outcome and no state change. -/
theorem C8_create_account_amended :
    (∀ cfg g req s s', Currency.IsValid req.Currency = false →
      (CreateAccount cfg g req s).2 = s ∧
      (CreateAccount cfg g req s).1 = (CreateAccount cfg g req s').1 ∧
      createHasFieldError (CreateAccount cfg g req s).1 "Currency" = true) ∧
    (∀ cfg g req s a, req.ID ≠ "" → ValidateAccount req = [] → s.accounts req.ID = some a →
      CreateAccount cfg g req s = (.conflict, s)) := by
  constructor
  · intro cfg g req s s' h
    have hcur : Currency.IsValid (withGeneratedId g req).Currency = false := by
      rw [withGeneratedId_Currency]
      exact h
    obtain ⟨m, hC⟩ := accountCurrencyErrors_invalid hcur
    have hne : ValidateAccount (withGeneratedId g req) ≠ [] := by
      rw [ValidateAccount, hC]
      simp
    obtain ⟨e, es, hL⟩ := List.exists_cons_of_ne_nil hne
    have hmem : (⟨"Currency", m, .str (withGeneratedId g req).Currency⟩ : ValidationError) ∈
        ValidateAccount (withGeneratedId g req) := by
      rw [ValidateAccount, hC]
      simp
    refine ⟨?_, ?_, ?_⟩
    · simp only [CreateAccount, hL]
    · simp only [CreateAccount, hL]
    · simp only [CreateAccount, hL, createHasFieldError]
      rw [List.any_eq_true]
      exact ⟨_, hL ▸ hmem, by simp⟩
  · intro cfg g req s a hid hval hsome
    have hw : withGeneratedId g req = req := by
      rw [withGeneratedId, if_neg hid]
    simp only [CreateAccount, hw, hval, hsome]

/-- Witness for the amended C8: creating with currency `"XYZ"` is
rejected with a `Currency` error and no write, and re-creating the
existing `uuidA` account returns conflict. -/
theorem C8_create_account_amended_witness :
    (CreateAccount defaultAppConfig uuidB ⟨"", 0, "XYZ", 0⟩ emptyStore).2 = emptyStore ∧
    createHasFieldError (CreateAccount defaultAppConfig uuidB ⟨"", 0, "XYZ", 0⟩ emptyStore).1 "Currency" = true ∧
    CreateAccount defaultAppConfig uuidB ⟨uuidA, 0, "USD", 0⟩ storeA0 = (.conflict, storeA0) := by
  obtain ⟨h1, -, h3⟩ :=
    C8_create_account_amended.1 defaultAppConfig uuidB ⟨"", 0, "XYZ", 0⟩ emptyStore emptyStore (by decide)
  exact ⟨h1, h3,
    C8_create_account_amended.2 defaultAppConfig uuidB ⟨uuidA, 0, "USD", 0⟩ storeA0
      ⟨uuidA, 0, "USD", 10⟩ (by decide) (by decide) (by decide)⟩

/-- C9: every balance or history query whose path identifier is not a
parseable UUID is answered with the bad-request outcome "Invalid
account ID format", whatever the stored state (so before any storage
access). -/
theorem C9_unparseable_id_bad_request (cfg : AppConfig) (id : String) (s : Store)
    (h : uuidParseOk id = false) :
    GetBalance cfg id s = .badRequest "Invalid account ID format" ∧
    GetTransactionHistory cfg id s = .badRequest "Invalid account ID format" := by
  constructor
  · rw [GetBalance, isValidUUID]
    simp [h]
  · rw [GetTransactionHistory, isValidUUID]
    simp [h]

/-- Witness for C9: the identifier `"not-a-uuid"` is rejected by both
queries against a populated store. -/
theorem C9_unparseable_id_bad_request_witness :
    GetBalance defaultAppConfig "not-a-uuid" historyStore = .badRequest "Invalid account ID format" ∧
    GetTransactionHistory defaultAppConfig "not-a-uuid" historyStore = .badRequest "Invalid account ID format" :=
  C9_unparseable_id_bad_request defaultAppConfig "not-a-uuid" historyStore (by decide)

/-- C10: transaction validation accepts every request with two
distinct parseable identifiers and any strictly positive amount — no
minimum or maximum is applied — and the transfer engine's behaviour
does not depend on the application configuration at all (the
configured minimum and maximum transaction amounts are never
consulted). -/
theorem C10_validation_ignores_limits :
    (∀ (id : Nat) (frm toId : String) (amount : ℤ) (status : String) (ts : Nat),
      frm ≠ toId → uuidParseOk frm = true → uuidParseOk toId = true → 0 < amount →
      ValidateTransaction ⟨id, frm, toId, amount, status, ts⟩ = []) ∧
    (∀ cfg cfg' tx s, Transfer cfg tx s = Transfer cfg' tx s) := by
  constructor
  · intro id frm toId amount status ts hne hfu htu hpos
    have hf0 : ¬ frm = "" := by
      intro he
      rw [he] at hfu
      exact absurd hfu (by decide)
    have ht0 : ¬ toId = "" := by
      intro he
      rw [he] at htu
      exact absurd htu (by decide)
    have hne2 : ¬ toId = frm := fun hh => hne hh.symm
    have hnz : ¬ amount = 0 := by omega
    simp [ValidateTransaction, fromFieldErrors, toFieldErrors, amountFieldErrors, validateUUID4,
      hf0, ht0, hne2, hnz, hfu, htu, hpos]
  · intro cfg cfg' tx s
    rfl

/-- Witness for C10: an amount of 20,000.00 — far above a configured
maximum of 10,000.00 — passes validation, and the transfer behaves
identically under that tight configuration and the default one. -/
theorem C10_validation_ignores_limits_witness :
    ValidateTransaction ⟨0, uuidA, uuidB, 2000000, "", 0⟩ = [] ∧
    Transfer ⟨100, 100, 1000000⟩ ⟨0, uuidA, uuidB, 2000000, "", 0⟩ storeAB =
      Transfer defaultAppConfig ⟨0, uuidA, uuidB, 2000000, "", 0⟩ storeAB := by
  constructor
  · exact C10_validation_ignores_limits.1 0 uuidA uuidB 2000000 "" 0
      (by decide) (by decide) (by decide) (by decide)
  · exact C10_validation_ignores_limits.2 ⟨100, 100, 1000000⟩ defaultAppConfig
      ⟨0, uuidA, uuidB, 2000000, "", 0⟩ storeAB

/-- C1: evaluation of a fully valid transfer (both accounts exist,
same currency, balance 100.00 well above the 30.00 amount) shows the
handler's own balance updates composed with the schema's
`update_balances_after_insert` trigger debit and credit the accounts
twice: the final balances are 40.00 and 110.00 instead of the claimed
70.00 and 80.00, although exactly one completed transaction record
referencing both accounts is stored; moreover the same transfer with
amount 60.00 (still within the source balance) is aborted by the
`check_sufficient_balance` trigger at the audit insert and surfaces as
an internal fault instead of succeeding. -/
theorem C1_transfer_double_applies_updates :
    (Transfer defaultAppConfig reqAB storeAB).1 = .success ⟨1, uuidA, uuidB, 3000, "completed", 1000⟩ ∧
    ((Transfer defaultAppConfig reqAB storeAB).2.accounts uuidA).map Account.Balance = some 4000 ∧
    ((Transfer defaultAppConfig reqAB storeAB).2.accounts uuidB).map Account.Balance = some 11000 ∧
    (Transfer defaultAppConfig reqAB storeAB).2.transactions = [⟨1, uuidA, uuidB, 3000, "completed", 1000⟩] ∧
    (4000 : ℤ) ≠ 10000 - 3000 ∧
    (Transfer defaultAppConfig ⟨0, uuidA, uuidB, 6000, "", 0⟩ storeAB).1 =
      .internalFault "Failed to record transaction" := by
  refine ⟨by decide, by decide, by decide, by decide, by decide, by decide⟩
